import Mathlib

/-!
Shallow embedding of the vivatech-scraper extraction engine and of the
speaker/partner parsing pipelines (src/main.rs and src/partners.rs of the
repository).  Text is modelled as a list of characters; indices count
characters, which coincides with the byte offsets used by the Rust code on
ASCII input (every concrete input considered below is ASCII).
-/

/-- Shorthand turning a string literal into the character-list representation
used throughout this development. -/
def cs (s : String) : List Char := s.toList

/-- The marker literal the extractor searches for (main.rs line 207 and
partners.rs line 47): the eleven characters of the escaped JSON array
opening, namely bracket, brace, and the escaped key quote of id. -/
def marker : List Char := ['[', '{', '\\', '"', 'i', 'd', '\\', '"', ':', '\\', '"']

/-- First index at which the pattern occurs in the text: model of the Rust
str find method with a string pattern. -/
def findSub (pat : List Char) : List Char → Option Nat
  | [] => if pat.isPrefixOf ([] : List Char) then some 0 else none
  | c :: rest =>
    if pat.isPrefixOf (c :: rest) then some 0
    else (findSub pat rest).map (· + 1)

/-- Model of the replace call turning every two-character sequence
backslash-quote into a bare quote (main.rs line 226, partners.rs line 66):
leftmost, non-overlapping. -/
def replaceEscQuote : List Char → List Char
  | '\\' :: '"' :: rest => '"' :: replaceEscQuote rest
  | c :: rest => c :: replaceEscQuote rest
  | [] => []

/-- Value of a single hexadecimal digit character, as accepted by the Rust
char to_digit method with radix 16. -/
def hexDigit? (c : Char) : Option Nat :=
  if '0' ≤ c ∧ c ≤ '9' then some (c.toNat - '0'.toNat)
  else if 'a' ≤ c ∧ c ≤ 'f' then some (c.toNat - 'a'.toNat + 10)
  else if 'A' ≤ c ∧ c ≤ 'F' then some (c.toNat - 'A'.toNat + 10)
  else none

/-- The optional leading plus sign accepted by the Rust from_str_radix
function on an unsigned type. -/
def stripSign : List Char → List Char
  | '+' :: rest => rest
  | s => s

/-- Model of the Rust u32 from_str_radix function at radix 16 as called on
the four captured characters: an optional leading plus sign followed by at
least one hexadecimal digit.  With at most four digits the u32 range cannot
overflow, so no overflow case is modelled. -/
def fromStrRadix16 (s : List Char) : Option Nat :=
  match stripSign s with
  | [] => none
  | ds =>
    ds.foldl (fun acc c =>
      match acc, hexDigit? c with
      | some a, some d => some (a * 16 + d)
      | _, _ => none) (some 0)

/-- Decoding of a four-character unicode escape payload: parse the four
characters with from_str_radix at radix 16, then convert with the Rust
char from_u32 function, which accepts exactly the valid code points
(below 0x110000 and not a surrogate). -/
def decodeHex4 (a b c d : Char) : Option Char :=
  match fromStrRadix16 [a, b, c, d] with
  | some n => if _h : n.isValidChar then some (Char.ofNat n) else none
  | none => none

/-- Model of unescape_unicode (main.rs lines 161-203; partners.rs lines
286-328 is the identical function): walk the characters, and after a
backslash decode a unicode escape of exactly four captured characters,
translate the recognized single-character escapes, keep the backslash in
front of any other character, and emit a lone trailing backslash
literally.  When fewer than four characters remain after a backslash-u,
the iterator consumes them all and emits them unchanged, ending the walk. -/
def unescape_unicode : List Char → List Char
  | '\\' :: 'u' :: a :: b :: c :: d :: rest =>
    match decodeHex4 a b c d with
    | some ch => ch :: unescape_unicode rest
    | none => '\\' :: 'u' :: a :: b :: c :: d :: unescape_unicode rest
  | '\\' :: 'u' :: rest => '\\' :: 'u' :: rest
  | '\\' :: 'n' :: rest => '\n' :: unescape_unicode rest
  | '\\' :: 'r' :: rest => '\r' :: unescape_unicode rest
  | '\\' :: 't' :: rest => '\t' :: unescape_unicode rest
  | '\\' :: '"' :: rest => '"' :: unescape_unicode rest
  | '\\' :: '\\' :: rest => '\\' :: unescape_unicode rest
  | '\\' :: c :: rest => '\\' :: c :: unescape_unicode rest
  | ['\\'] => ['\\']
  | c :: rest => c :: unescape_unicode rest
  | [] => []

/-- Error taxonomy of the pipelines (spec section 7): extraction failure
(the NotFoundError) versus JSON parse failure (the ParseError). -/
inductive ScrapeErr where
  | notFound : ScrapeErr
  | parseErr : ScrapeErr
deriving DecidableEq, Repr

/-- The bracket-depth scan of extract_json_from_html (main.rs lines
208-232), started at the marker position.  Arguments: remaining text,
current character index, signed bracket depth, in-string flag, escape-next
flag.  Returns the index (relative to the marker) of the closing bracket,
or none when the input is exhausted first.  The quote arm carries the
escape-next guard of the source match arm, which is always false there. -/
def scanLoop : List Char → Nat → Int → Bool → Bool → Option Nat
  | [], _, _, _, _ => none
  | c :: rest, i, depth, inStr, esc =>
    if esc then scanLoop rest (i + 1) depth inStr false
    else if c == '\\' then scanLoop rest (i + 1) depth inStr true
    else if c == '"' && !esc then scanLoop rest (i + 1) depth (!inStr) esc
    else if c == '[' && !inStr then scanLoop rest (i + 1) (depth + 1) inStr esc
    else if c == ']' && !inStr then
      if depth - 1 = 0 then some i
      else scanLoop rest (i + 1) (depth - 1) inStr esc
    else scanLoop rest (i + 1) depth inStr esc

/-- Model of extract_json_from_html (main.rs lines 206-238): locate the
marker, run the depth scan from it, slice from the marker through the
closing bracket inclusive, replace escaped quotes, and unescape unicode
sequences. -/
def extract_json_from_html (html : List Char) : Except ScrapeErr (List Char) :=
  match findSub marker html with
  | none => .error .notFound
  | some startIdx =>
    match scanLoop (html.drop startIdx) 0 0 false false with
    | some i =>
      .ok (unescape_unicode (replaceEscQuote ((html.drop startIdx).take (i + 1))))
    | none => .error .notFound

/-- Generic JSON tree, the output type of the external JSON parser
collaborator (serde_json).  Numbers keep their raw text: no code path
modelled here uses a numeric value. -/
inductive Json where
  | null : Json
  | bool : Bool → Json
  | num : List Char → Json
  | str : List Char → Json
  | arr : List Json → Json
  | obj : List (List Char × Json) → Json

/-- First binding of a key in an object field list (model of the
serde_json map lookup on objects built by the program). -/
def jLookup : List (List Char × Json) → List Char → Option Json
  | [], _ => none
  | (k, v) :: rest, key => if k == key then some v else jLookup rest key

/-- Model of the serde_json as_str method. -/
def Json.asStr : Json → Option (List Char)
  | .str s => some s
  | _ => none

/-- Model of serde_json value indexing by key: a lookup on objects and
none on every other value. -/
def Json.getKey : Json → List Char → Option Json
  | .obj fs, key => jLookup fs key
  | _, _ => none

/-- JSON whitespace per the JSON grammar. -/
def isJsonWs (c : Char) : Bool := c == ' ' || c == '\t' || c == '\n' || c == '\r'

/-- Decoding of a JSON unicode escape: exactly four hexadecimal digits
naming a valid code point (lone surrogates rejected; surrogate pairs are
not modelled, no input below uses them). -/
def jsonUnicode? (a b c d : Char) : Option Char :=
  match hexDigit? a, hexDigit? b, hexDigit? c, hexDigit? d with
  | some x, some y, some z, some w =>
    let n := ((x * 16 + y) * 16 + z) * 16 + w
    if _h : n.isValidChar then some (Char.ofNat n) else none
  | _, _, _, _ => none

/-- Modelled from the spec: the external JSON parser collaborator
(serde_json), whose code is not part of this repository.  String body
scanner: consumes characters up to the closing quote, handling the JSON
escape sequences and rejecting control characters and malformed
escapes. -/
def pStrBody : List Char → List Char → Option (List Char × List Char)
  | [], _ => none
  | '"' :: rest, acc => some (acc, rest)
  | '\\' :: 'u' :: a :: b :: c :: d :: rest, acc =>
    match jsonUnicode? a b c d with
    | some ch => pStrBody rest (acc ++ [ch])
    | none => none
  | '\\' :: '"' :: rest, acc => pStrBody rest (acc ++ ['"'])
  | '\\' :: '\\' :: rest, acc => pStrBody rest (acc ++ ['\\'])
  | '\\' :: '/' :: rest, acc => pStrBody rest (acc ++ ['/'])
  | '\\' :: 'b' :: rest, acc => pStrBody rest (acc ++ ['\x08'])
  | '\\' :: 'f' :: rest, acc => pStrBody rest (acc ++ ['\x0c'])
  | '\\' :: 'n' :: rest, acc => pStrBody rest (acc ++ ['\n'])
  | '\\' :: 'r' :: rest, acc => pStrBody rest (acc ++ ['\r'])
  | '\\' :: 't' :: rest, acc => pStrBody rest (acc ++ ['\t'])
  | '\\' :: _ :: _, _ => none
  | ['\\'], _ => none
  | c :: rest, acc => if c.toNat < 32 then none else pStrBody rest (acc ++ [c])

/-- Span of decimal digits at the front of the text. -/
def spanDigits : List Char → (List Char × List Char)
  | [] => ([], [])
  | c :: rest =>
    if c.isDigit then
      let p := spanDigits rest
      (c :: p.1, p.2)
    else ([], c :: rest)

/-- Modelled from the spec: exponent part of a JSON number (external JSON
parser collaborator). -/
def pNumExp (acc s : List Char) : Option (Json × List Char) :=
  match s with
  | e :: rest =>
    if e == 'e' || e == 'E' then
      let p : List Char × List Char := match rest with
        | '+' :: r => (['+'], r)
        | '-' :: r => (['-'], r)
        | _ => ([], rest)
      match p.2 with
      | c :: r2 =>
        if c.isDigit then
          let q := spanDigits r2
          some (.num (acc ++ e :: p.1 ++ c :: q.1), q.2)
        else none
      | [] => none
    else some (.num acc, s)
  | [] => some (.num acc, [])

/-- Modelled from the spec: fraction part of a JSON number (external JSON
parser collaborator). -/
def pNumFrac (acc s : List Char) : Option (Json × List Char) :=
  match s with
  | '.' :: rest =>
    match rest with
    | c :: r1 =>
      if c.isDigit then
        let q := spanDigits r1
        pNumExp (acc ++ '.' :: c :: q.1) q.2
      else none
    | [] => none
  | _ => pNumExp acc s

/-- Modelled from the spec: a JSON number per the grammar (external JSON
parser collaborator). -/
def pNum (s : List Char) : Option (Json × List Char) :=
  let p : List Char × List Char := match s with
    | '-' :: rest => (['-'], rest)
    | _ => ([], s)
  match p.2 with
  | '0' :: rest => pNumFrac (p.1 ++ ['0']) rest
  | c :: rest =>
    if c.isDigit then
      let q := spanDigits rest
      pNumFrac (p.1 ++ c :: q.1) q.2
    else none
  | [] => none

mutual

/-- Modelled from the spec: the external JSON parser collaborator
(serde_json); fuel-indexed recursive-descent parser of one JSON value. -/
def pValue : Nat → List Char → Option (Json × List Char)
  | 0, _ => none
  | f + 1, s =>
    match s.dropWhile isJsonWs with
    | 'n' :: 'u' :: 'l' :: 'l' :: rest => some (.null, rest)
    | 't' :: 'r' :: 'u' :: 'e' :: rest => some (.bool true, rest)
    | 'f' :: 'a' :: 'l' :: 's' :: 'e' :: rest => some (.bool false, rest)
    | '"' :: rest => (pStrBody rest []).map (fun p => (.str p.1, p.2))
    | '[' :: rest =>
      match rest.dropWhile isJsonWs with
      | ']' :: r => some (.arr [], r)
      | r => pElems f r []
    | '\x7b' :: rest =>
      match rest.dropWhile isJsonWs with
      | '\x7d' :: r => some (.obj [], r)
      | r => pMembers f r []
    | c :: rest =>
      if c == '-' || c.isDigit then pNum (c :: rest) else none
    | [] => none

/-- Modelled from the spec: array elements of the external JSON parser. -/
def pElems : Nat → List Char → List Json → Option (Json × List Char)
  | 0, _, _ => none
  | f + 1, s, acc =>
    match pValue f s with
    | some (v, r) =>
      match r.dropWhile isJsonWs with
      | ',' :: r2 => pElems f r2 (acc ++ [v])
      | ']' :: r2 => some (.arr (acc ++ [v]), r2)
      | _ => none
    | none => none

/-- Modelled from the spec: object members of the external JSON parser. -/
def pMembers : Nat → List Char → List (List Char × Json) → Option (Json × List Char)
  | 0, _, _ => none
  | f + 1, s, acc =>
    match s.dropWhile isJsonWs with
    | '"' :: rest =>
      match pStrBody rest [] with
      | some (key, r1) =>
        match r1.dropWhile isJsonWs with
        | ':' :: r2 =>
          match pValue f r2 with
          | some (v, r3) =>
            match r3.dropWhile isJsonWs with
            | ',' :: r4 => pMembers f r4 (acc ++ [(key, v)])
            | '\x7d' :: r4 => some (.obj (acc ++ [(key, v)]), r4)
            | _ => none
          | none => none
        | _ => none
      | none => none
    | _ => none

end

/-- Modelled from the spec: top-level entry of the external JSON parser
collaborator; a complete JSON document followed by nothing but
whitespace. -/
def Json.parse? (s : List Char) : Option Json :=
  match pValue (2 * s.length + 2) s with
  | some (v, rest) => if (rest.dropWhile isJsonWs).isEmpty then some v else none
  | none => none

/-- Model of the Rust str contains method: the pattern occurs somewhere in
the text. -/
def containsSub (s pat : List Char) : Bool := (findSub pat s).isSome

/-- Helper for the model of the Rust str rfind method, carrying the index
of the current position. -/
def rfindSubAux (pat : List Char) : List Char → Nat → Option Nat
  | [], i => if pat.isEmpty then some i else none
  | c :: rest, i =>
    match rfindSubAux pat rest (i + 1) with
    | some j => some j
    | none => if pat.isPrefixOf (c :: rest) then some i else none

/-- Last index at which the pattern occurs in the text (model of the Rust
str rfind method). -/
def rfindSub (s pat : List Char) : Option Nat := rfindSubAux pat s 0

/-- Model of the Rust str trim method; the Lean whitespace predicate covers
the ASCII whitespace of every input considered here. -/
def trimWs (s : List Char) : List Char :=
  ((s.dropWhile Char.isWhitespace).reverse.dropWhile Char.isWhitespace).reverse

/-- Partner record (partners.rs lines 13-26).  The program always builds
these records directly, so only the field list matters here. -/
structure Partner where
  name : List Char
  category : List Char
  country : List Char
  description : List Char
  website : List Char
  logo_url : List Char
deriving DecidableEq

/-- Model of extract_country_from_city (partners.rs lines 147-159): the
fixed city-to-country table, substring match, case-sensitive, first
matching rule wins. -/
def extract_country_from_city (city : List Char) : List Char :=
  if containsSub city (cs "Paris") then cs "France"
  else if containsSub city (cs "London") then cs "UK"
  else if containsSub city (cs "Berlin") then cs "Germany"
  else if containsSub city (cs "Tokyo") then cs "Japan"
  else if containsSub city (cs "New York") || containsSub city (cs "San Francisco") then cs "USA"
  else if containsSub city (cs "Beijing") || containsSub city (cs "Shanghai") then cs "China"
  else if containsSub city (cs "Mumbai") || containsSub city (cs "Bangalore") then cs "India"
  else if containsSub city (cs "Toronto") || containsSub city (cs "Montreal") then cs "Canada"
  else []

/-- The fixed country list of is_likely_country (partners.rs lines
196-250), in source order. -/
def countriesList : List (List Char) :=
  [cs "France", cs "USA", cs "United States", cs "UK", cs "United Kingdom",
   cs "Germany", cs "Japan", cs "China", cs "India", cs "Canada",
   cs "Spain", cs "Italy", cs "Netherlands", cs "Belgium", cs "Switzerland",
   cs "Austria", cs "Australia", cs "New Zealand", cs "Singapore", cs "Korea",
   cs "Brazil", cs "Mexico", cs "Argentina", cs "Chile", cs "Poland",
   cs "Czech Republic", cs "Hungary", cs "Romania", cs "Greece", cs "Portugal",
   cs "Ireland", cs "Scotland", cs "Wales", cs "Sweden", cs "Norway",
   cs "Denmark", cs "Finland", cs "Russia", cs "Ukraine", cs "Turkey",
   cs "Israel", cs "UAE", cs "Saudi Arabia", cs "Egypt", cs "South Africa",
   cs "Nigeria", cs "Kenya", cs "Morocco", cs "Algeria", cs "Tunisia",
   cs "Albania", cs "Armenia", cs "Bangladesh"]

/-- Model of the Rust eq_ignore_ascii_case method: equality after
per-character ASCII lowercasing (the Lean toLower lowers exactly the ASCII
uppercase letters). -/
def eqIgnoreAsciiCase (a b : List Char) : Bool :=
  a.map Char.toLower == b.map Char.toLower

/-- Model of is_likely_country (partners.rs lines 195-255). -/
def is_likely_country (text : List Char) : Bool :=
  countriesList.any (fun ctry => eqIgnoreAsciiCase text ctry)

/-- The pattern-to-country pairs of extract_country_from_name (partners.rs
lines 171-182), in source order. -/
def countryPairs : List (List Char × List Char) :=
  [(cs "France", cs "France"), (cs "USA", cs "USA"),
   (cs "United States", cs "USA"), (cs "UK", cs "UK"),
   (cs "United Kingdom", cs "UK"), (cs "Germany", cs "Germany"),
   (cs "Japan", cs "Japan"), (cs "China", cs "China"),
   (cs "India", cs "India"), (cs "Canada", cs "Canada")]

/-- The loop over the pattern table (partners.rs lines 185-189): the
uppercased name must contain the uppercased pattern; first hit wins. -/
def scanCountryTable : List (List Char × List Char) → List Char → List Char
  | [], _ => []
  | (pat, ctry) :: rest, nameUpper =>
    if containsSub nameUpper (pat.map Char.toUpper) then ctry
    else scanCountryTable rest nameUpper

/-- Model of extract_country_from_name (partners.rs lines 162-192).  The
Rust to_uppercase call is modelled as per-character ASCII uppercasing,
which agrees with it on the ASCII text considered here. -/
def extract_country_from_name (name : List Char) : List Char :=
  match rfindSub name (cs " - ") with
  | some dashPos =>
    let potential := trimWs (name.drop (dashPos + 3))
    if is_likely_country potential then potential
    else scanCountryTable countryPairs (name.map Char.toUpper)
  | none => scanCountryTable countryPairs (name.map Char.toUpper)

/-- The description derivation inside extract_partners_from_json_array
(partners.rs lines 113-118): the desc lookup, or-else the short_desc
lookup, and-then as_str, defaulting to empty.  Note the or-else fires only
when the desc key is absent, not when its value is null. -/
def descriptionOf (fs : List (List Char × Json)) : List Char :=
  (((jLookup fs (cs "desc")).orElse
      (fun _ => jLookup fs (cs "short_desc"))).bind Json.asStr).getD []

/-- The per-object body of the loop of extract_partners_from_json_array
(partners.rs lines 96-130): the object must carry name and type fields
with string values, the type must contain partner or equal startup, and
the record fields are then derived. -/
def partnerOf (item : Json) : Option Partner :=
  match item with
  | .obj fs =>
    match jLookup fs (cs "name"), jLookup fs (cs "type") with
    | some nameVal, some typeVal =>
      match nameVal.asStr, typeVal.asStr with
      | some name, some typeStr =>
        if containsSub typeStr (cs "partner") || typeStr == cs "startup" then
          some
            { name := name
              category := typeStr
              country :=
                match ((jLookup fs (cs "key_figures")).bind
                    (fun kf => kf.getKey (cs "city"))).bind Json.asStr with
                | some city => extract_country_from_city city
                | none => extract_country_from_name name
              description := descriptionOf fs
              website := ((jLookup fs (cs "website")).bind Json.asStr).getD []
              logo_url := (((jLookup fs (cs "logo")).bind
                  (fun logo => logo.getKey (cs "u"))).bind Json.asStr).getD [] }
        else none
      | _, _ => none
    | _, _ => none
  | _ => none

/-- The accumulation loop of extract_partners_from_json_array (partners.rs
lines 95-140): push each derived partner unless one of the same name was
already pushed. -/
def epLoop : List Json → List Partner → List Partner
  | [], acc => acc
  | item :: rest, acc =>
    match partnerOf item with
    | some p =>
      if acc.any (fun q => q.name == p.name) then epLoop rest acc
      else epLoop rest (acc ++ [p])
    | none => epLoop rest acc

/-- Model of extract_partners_from_json_array (partners.rs lines 92-144). -/
def extract_partners_from_json_array (array : List Json) : List Partner :=
  epLoop array []

/-- The bracket-depth scan of extract_partners_from_html (partners.rs
lines 52-85): identical to scanLoop except for the safety limit, checked
at the end of each loop iteration, after the character at the current
index was already processed.  The escape-consuming iteration (lines
53-56) ends in a continue that skips the end-of-body limit check of
lines 82-84, so an escaped character is consumed without the check.  The
Rust index is a byte offset; character and byte offsets agree on ASCII
input. -/
def pScanLoop : List Char → Nat → Int → Bool → Bool → Option Nat
  | [], _, _, _, _ => none
  | c :: rest, i, depth, inStr, esc =>
    if esc then pScanLoop rest (i + 1) depth inStr false
    else if c == '\\' then
      if i > 50000000 then none else pScanLoop rest (i + 1) depth inStr true
    else if c == '"' && !esc then
      if i > 50000000 then none else pScanLoop rest (i + 1) depth (!inStr) esc
    else if c == '[' && !inStr then
      if i > 50000000 then none else pScanLoop rest (i + 1) (depth + 1) inStr esc
    else if c == ']' && !inStr then
      if depth - 1 = 0 then some i
      else if i > 50000000 then none else pScanLoop rest (i + 1) (depth - 1) inStr esc
    else
      if i > 50000000 then none else pScanLoop rest (i + 1) depth inStr esc

/-- Model of extract_partners_from_html (partners.rs lines 46-89): locate
the marker, scan with the safety limit, then parse the recovered text as
JSON in place; only a successful parse to an array yields a result, and
every other outcome, a failed parse included, falls through to the single
not-found error. -/
def extract_partners_from_html (html : List Char) : Except ScrapeErr (List Partner) :=
  match findSub marker html with
  | none => .error .notFound
  | some startIdx =>
    match pScanLoop (html.drop startIdx) 0 0 false false with
    | some i =>
      match Json.parse?
          (unescape_unicode (replaceEscQuote ((html.drop startIdx).take (i + 1)))) with
      | some (Json.arr a) => .ok (extract_partners_from_json_array a)
      | _ => .error .notFound
    | none => .error .notFound

/-- Required string field of a serde derive struct: a missing key or a
non-string value is a deserialization error. -/
def reqStr (fs : List (List Char × Json)) (key : List Char) : Option (List Char) :=
  match jLookup fs key with
  | some (Json.str s) => some s
  | _ => none

/-- String field carrying the serde default attribute: an absent key
yields the empty string; a present value must be a string. -/
def defStr (fs : List (List Char × Json)) (key : List Char) : Option (List Char) :=
  match jLookup fs key with
  | some (Json.str s) => some s
  | some _ => none
  | none => some []

/-- Boolean field carrying the serde default attribute: an absent key
yields false; a present value must be a boolean. -/
def defBool (fs : List (List Char × Json)) (key : List Char) : Option Bool :=
  match jLookup fs key with
  | some (Json.bool b) => some b
  | some _ => none
  | none => some false

/-- List-of-strings field carrying the serde default attribute: an absent
key yields the empty list; a present value must be an array of strings. -/
def defStrList (fs : List (List Char × Json)) (key : List Char) :
    Option (List (List Char)) :=
  match jLookup fs key with
  | some (Json.arr xs) => xs.mapM Json.asStr
  | some _ => none
  | none => some []

/-- Optional string field carrying the serde default attribute
(communication_manager): an absent key or a null value yields none. -/
def optStr (fs : List (List Char × Json)) (key : List Char) :
    Option (Option (List Char)) :=
  match jLookup fs key with
  | some (Json.str s) => some (some s)
  | some Json.null => some none
  | some _ => none
  | none => some none

/-- Image data model (main.rs lines 81-90): the s, t and l fields carry
the serde default attribute; the u field does not. -/
structure Image where
  s : List Char
  t : List Char
  l : List Char
  u : List Char
deriving DecidableEq

/-- Deserialization of Image per its serde attributes: an object whose s,
t and l fields default to empty and whose u field is required. -/
def Image.fromJson : Json → Option Image
  | Json.obj fs =>
    match defStr fs (cs "s"), defStr fs (cs "t"), defStr fs (cs "l"),
        reqStr fs (cs "u") with
    | some s, some t, some l, some u => some ⟨s, t, l, u⟩
    | _, _, _, _ => none
  | _ => none

/-- The image field of Speaker, an option type without a default
attribute: an absent key or a null value yields none, an object is
deserialized into Image, and anything else is an error. -/
def optImage (fs : List (List Char × Json)) : Option (Option Image) :=
  match jLookup fs (cs "image") with
  | none => some none
  | some Json.null => some none
  | some v => (Image.fromJson v).map some

/-- Speaker data model (main.rs lines 51-79). -/
structure Speaker where
  id : List Char
  firstname : List Char
  lastname : List Char
  email : List Char
  job_title : List Char
  company : List Char
  tags : List (List Char)
  themes : List (List Char)
  image : Option Image
  has_bio : Bool
  has_sessions : Bool
  is_official : Bool
  is_partner : Bool
  top : Bool
  communication_manager : Option (List Char)
deriving DecidableEq

/-- Deserialization of Speaker per its serde attributes (main.rs lines
51-79): id, firstname, lastname, jobTitle (renamed) and company are
required strings; email, tags, themes, the four renamed flags and top
carry defaults; communication_manager defaults to none; image is
optional.  Unknown keys are ignored, the serde default. -/
def Speaker.fromJson (j : Json) : Option Speaker :=
  match j with
  | Json.obj fs =>
    match reqStr fs (cs "id"), reqStr fs (cs "firstname"), reqStr fs (cs "lastname"),
        reqStr fs (cs "jobTitle"), reqStr fs (cs "company") with
    | some i, some fn, some ln, some jt, some co =>
      match defStr fs (cs "email"), defStrList fs (cs "tags"),
          defStrList fs (cs "themes"), optImage fs with
      | some em, some tg, some th, some im =>
        match defBool fs (cs "hasBio"), defBool fs (cs "hasSessions"),
            defBool fs (cs "isOfficial"), defBool fs (cs "isPartner"),
            defBool fs (cs "top"), optStr fs (cs "communication_manager") with
        | some hb, some hs, some off, some ip, some tp, some cm =>
          some ⟨i, fn, ln, em, jt, co, tg, th, im, hb, hs, off, ip, tp, cm⟩
        | _, _, _, _, _, _ => none
      | _, _, _, _ => none
    | _, _, _, _, _ => none
  | _ => none

/-- Deserialization of the vector of speakers, the serde_json from_str
target type of parse_speakers_from_json. -/
def speakersOfJson : Json → Option (List Speaker)
  | Json.arr items => items.mapM Speaker.fromJson
  | _ => none

/-- Model of parse_speakers_from_json (main.rs lines 252-258): parse the
text as JSON and deserialize into the speaker list; any failure is the
ParseError. -/
def parse_speakers_from_json (s : List Char) : Except ScrapeErr (List Speaker) :=
  match Json.parse? s with
  | some j =>
    match speakersOfJson j with
    | some speakers => .ok speakers
    | none => .error .parseErr
  | none => .error .parseErr

/-- CSV row for a speaker (main.rs lines 93-132). -/
structure SpeakerRecord where
  id : List Char
  first_name : List Char
  last_name : List Char
  email : List Char
  job_title : List Char
  company : List Char
  tags : List Char
  themes : List Char
  has_bio : Bool
  has_sessions : Bool
  is_official : Bool
  is_partner : Bool
  is_top_speaker : Bool
  communication_manager : List Char
  image_small_url : List Char
  image_thumbnail_url : List Char
  image_large_url : List Char
  image_main_url : List Char
deriving DecidableEq

/-- Model of the Rust slice join with the comma-space separator. -/
def joinComma (xs : List (List Char)) : List Char :=
  (xs.intersperse (cs ", ")).flatten

/-- Model of convert_to_csv_records (main.rs lines 261-302). -/
def convert_to_csv_records (speakers : List Speaker) : List SpeakerRecord :=
  speakers.map (fun sp =>
    let imgs : List Char × List Char × List Char × List Char :=
      match sp.image with
      | none => (cs "N/A", cs "N/A", cs "N/A", cs "N/A")
      | some img => (img.s, img.t, img.l, img.u)
    { id := sp.id
      first_name := sp.firstname
      last_name := sp.lastname
      email := sp.email
      job_title := sp.job_title
      company := sp.company
      tags := joinComma sp.tags
      themes := joinComma sp.themes
      has_bio := sp.has_bio
      has_sessions := sp.has_sessions
      is_official := sp.is_official
      is_partner := sp.is_partner
      is_top_speaker := sp.top
      communication_manager := sp.communication_manager.getD (cs "N/A")
      image_small_url := imgs.1
      image_thumbnail_url := imgs.2.1
      image_large_url := imgs.2.2.1
      image_main_url := imgs.2.2.2 })

/-- CSV row for a partner (partners.rs lines 29-43). -/
structure PartnerRecord where
  company_name : List Char
  category : List Char
  country : List Char
  description : List Char
  website : List Char
  logo_url : List Char
deriving DecidableEq

/-- Model of convert_to_partner_records (partners.rs lines 258-270). -/
def convert_to_partner_records (partners : List Partner) : List PartnerRecord :=
  partners.map (fun p =>
    { company_name := p.name
      category := p.category
      country := p.country
      description := p.description
      website := p.website
      logo_url := p.logo_url })

/-- File payload written by a pipeline run: shallow model of the file
system effects, each write recorded as a payload tagged by kind. -/
inductive WriteData where
  | htmlDump : List Char → WriteData
  | speakerCsv : List SpeakerRecord → WriteData
  | partnerCsv : List PartnerRecord → WriteData
deriving DecidableEq

/-- Model of run_scraper (main.rs lines 327-354) after a successful fetch
of the page text: an extraction failure dumps the raw page to the fixed
debug file and propagates the error; a parse failure propagates with no
writes; success writes the CSV records to the output path.  The network
fetch, the CSV serialization and the file system are external
collaborators; each write is recorded as a path-payload event. -/
def run_scraper (html outputPath : List Char) :
    Except ScrapeErr (List SpeakerRecord) × List (List Char × WriteData) :=
  match extract_json_from_html html with
  | .error e => (.error e, [(cs "debug_vivatech_page.html", .htmlDump html)])
  | .ok jsonStr =>
    match parse_speakers_from_json jsonStr with
    | .error e => (.error e, [])
    | .ok speakers =>
      let records := convert_to_csv_records speakers
      (.ok records, [(outputPath, .speakerCsv records)])

/-- Model of run_partners_scraper (main.rs lines 400-418) after a
successful fetch: an extraction failure propagates with no writes at all;
success writes the CSV records to the output path. -/
def run_partners_scraper (html outputPath : List Char) :
    Except ScrapeErr (List PartnerRecord) × List (List Char × WriteData) :=
  match extract_partners_from_html html with
  | .error e => (.error e, [])
  | .ok partners =>
    let records := convert_to_partner_records partners
    (.ok records, [(outputPath, .partnerCsv records)])

/-- Ghost instrumentation of scanLoop: true exactly when the signed depth
counter is nonnegative at every step the scan takes, the value right after
each decrement included, up to the step where the scan stops (successful
stop, or exhaustion of the input). -/
def scanNonneg : List Char → Int → Bool → Bool → Bool
  | [], depth, _, _ => decide (0 ≤ depth)
  | c :: rest, depth, inStr, esc =>
    decide (0 ≤ depth) &&
    (if esc then scanNonneg rest depth inStr false
     else if c == '\\' then scanNonneg rest depth inStr true
     else if c == '"' && !esc then scanNonneg rest depth (!inStr) esc
     else if c == '[' && !inStr then scanNonneg rest (depth + 1) inStr esc
     else if c == ']' && !inStr then
       decide (0 ≤ depth - 1) &&
       (if depth - 1 = 0 then true else scanNonneg rest (depth - 1) inStr esc)
     else scanNonneg rest depth inStr esc)

/-- Specification-side deduplication, following the spec words: walk the
list and retain only the first record encountered for a given name, seen
names accumulating in the first argument. -/
def keepFirstBy : List (List Char) → List Partner → List Partner
  | _, [] => []
  | seen, p :: rest =>
    if seen.contains p.name then keepFirstBy seen rest
    else p :: keepFirstBy (p.name :: seen) rest

/-- Concrete input for the tags example: HTML embedding the escaped array
whose id is 1 and whose tags list holds one string containing a bracket
pair. -/
def tagsExampleHtml : List Char :=
  cs "<p>[\x7b\\\"id\\\":\\\"1\\\",\\\"tags\\\":[\\\"a[b]c\\\"]\x7d]</p>"

/-- Concrete input embedding a well-formed escaped JSON array whose id
string value contains an unmatched closing bracket. -/
def unbalancedIdHtml : List Char := cs "[\x7b\\\"id\\\":\\\"x]y\\\"\x7d]"

/-- Concrete speaker array whose image object lacks the main URL field. -/
def speakerNoMainUrl : Json :=
  Json.arr [Json.obj [(cs "id", Json.str (cs "1")),
    (cs "firstname", Json.str (cs "Jane")), (cs "lastname", Json.str (cs "Doe")),
    (cs "jobTitle", Json.str (cs "CEO")), (cs "company", Json.str (cs "Acme")),
    (cs "image", Json.obj [(cs "s", Json.str (cs "small.png"))])]]

/-- Concrete partner object with a null desc and a string short_desc. -/
def descNullObj : Json :=
  Json.obj [(cs "name", Json.str (cs "A")), (cs "type", Json.str (cs "startup")),
    (cs "desc", Json.null), (cs "short_desc", Json.str (cs "S"))]

/-- Concrete input on which delimitation succeeds but the recovered text
is not valid JSON: the scan stops at the bracket right after the comma. -/
def parseRejectHtml : List Char := cs "[\x7b\\\"id\\\":\\\",]"

/-- The unescaped prefix that replaceEscQuote makes of the marker. -/
def jsonHead : List Char := cs "[\x7b\"id\":\""

/-- Escaped payload family: the marker, a filler id content of the given
length, then the escaped closing quote and the two closing brackets.  Its
unescaping is a well-formed JSON array for every length. -/
def idFiller (n : Nat) : List Char := marker ++ List.replicate n 'a' ++ cs "\\\"\x7d]"

/-- Filler length placing the closing bracket of idFiller at scan index
50000001, one step past the safety limit of the partners scan. -/
def c10Len : Nat := 49999987

/-- Escaped-closer payload: the marker, filler placing a backslash at
scan index 50000000, its escaped quote at index 50000001 — consumed by
the escape branch without a limit check — and the closing bracket at
scan index 50000002. -/
def escFiller : List Char := marker ++ (List.replicate 49999989 'a' ++ cs "\\\"]")

/-- C1 counterexample: unbalancedIdHtml contains the marker followed by a
well-formed escaped JSON array (its full unescaping parses as a JSON
array), yet extract_json_from_html stops at the unmatched closing bracket
inside the id string value and returns a truncated prefix that is not
valid JSON.  Inside the escaped payload every quote is preceded by a
backslash, so the in-string flag never activates and brackets inside
string values are counted by the depth scan. -/
theorem C1_counterexample :
    extract_json_from_html unbalancedIdHtml = .ok (cs "[\x7b\"id\":\"x]")
    ∧ Json.parse? (cs "[\x7b\"id\":\"x]") = none
    ∧ Json.parse? (unescape_unicode (replaceEscQuote unbalancedIdHtml))
        = some (Json.arr [Json.obj [(cs "id", Json.str (cs "x]y"))]]) :=
  ⟨rfl, rfl, rfl⟩

/-- C1 (amended): because every quote inside the escaped payload is
preceded by a backslash, the in-string flag never activates there and
brackets inside string values are counted by the depth scan; extraction
returns the entire array whenever the brackets occurring inside string
values are balanced, which holds for the given example: on HTML embedding
the escaped array with id 1 and a tags list holding one string with a
balanced bracket pair, extraction returns the whole array, ending at the
final closing bracket, and the result is valid JSON. -/
theorem C1_amended :
    extract_json_from_html tagsExampleHtml
      = .ok (cs "[\x7b\"id\":\"1\",\"tags\":[\"a[b]c\"]\x7d]")
    ∧ Json.parse? (cs "[\x7b\"id\":\"1\",\"tags\":[\"a[b]c\"]\x7d]")
        = some (Json.arr [Json.obj [(cs "id", Json.str (cs "1")),
            (cs "tags", Json.arr [Json.str (cs "a[b]c")])]]) :=
  ⟨rfl, rfl⟩

/-- C7: country derivation behaves as claimed.  The city Paris-comma-France
maps to France through the city table; the London-comma-Paris conjunct
shows the first matching rule winning and the lowercase conjunct shows
case sensitivity.  With no city, the name Acme-dash-Germany yields Germany
via the trimmed text after the last dash, matched case-insensitively
against the fixed country list, and Acme Inc with no recognizable token
yields the empty string.  The two partner-level conjuncts show the same
derivations through partnerOf. -/
theorem C7_country_derivation :
    extract_country_from_city (cs "Paris, France") = cs "France"
    ∧ extract_country_from_city (cs "London, Paris") = cs "France"
    ∧ extract_country_from_city (cs "paris") = []
    ∧ extract_country_from_name (cs "Acme - Germany") = cs "Germany"
    ∧ is_likely_country (cs "germany") = true
    ∧ extract_country_from_name (cs "Acme Inc") = []
    ∧ (partnerOf (Json.obj [(cs "name", Json.str (cs "Acme - Germany")),
        (cs "type", Json.str (cs "startup"))])).map Partner.country
        = some (cs "Germany")
    ∧ (partnerOf (Json.obj [(cs "name", Json.str (cs "X")),
        (cs "type", Json.str (cs "startup")),
        (cs "key_figures", Json.obj [(cs "city", Json.str (cs "Paris, France"))])])).map
        Partner.country = some (cs "France") :=
  ⟨rfl, rfl, rfl, rfl, rfl, rfl, rfl, rfl⟩

/-- C9 (amended): after a successful fetch, an extraction failure in the
speakers pipeline writes the raw page to the fixed debug file before the
error propagates, and nothing else is written on any speakers-side
failure; the partners pipeline, however, propagates an extraction failure
without writing the debug file, and writes nothing on failure. -/
theorem C9_amended (html out : List Char) :
    (∀ e, extract_json_from_html html = .error e →
      run_scraper html out
        = (.error e, [(cs "debug_vivatech_page.html", .htmlDump html)]))
    ∧ (∀ t, extract_json_from_html html = .ok t →
        parse_speakers_from_json t = .error .parseErr →
        run_scraper html out = (.error .parseErr, []))
    ∧ (∀ e, extract_partners_from_html html = .error e →
      run_partners_scraper html out = (.error e, [])) := by
  refine ⟨?_, ?_, ?_⟩
  · intro e he
    simp [run_scraper, he]
  · intro t ht hp
    simp [run_scraper, ht, hp]
  · intro e he
    simp [run_partners_scraper, he]

/-- C9 counterexample: on input without the marker, the partners pipeline
hits the extraction failure yet its write list is empty — no debug file is
written — contradicting the claim that the debug dump happens for
whichever pipeline hits the extraction failure. -/
theorem C9_counterexample :
    extract_partners_from_html (cs "no data here") = .error .notFound
    ∧ run_partners_scraper (cs "no data here") (cs "partners.csv")
        = (.error .notFound, []) :=
  ⟨rfl, rfl⟩

/-- C9 witness: the speakers pipeline at a concrete marker-free input
writes exactly the debug dump and propagates the extraction error. -/
theorem C9_witness :
    run_scraper (cs "no data here") (cs "speakers.csv")
      = (.error .notFound,
          [(cs "debug_vivatech_page.html", .htmlDump (cs "no data here"))]) :=
  (C9_amended (cs "no data here") (cs "speakers.csv")).1 .notFound rfl

/-- C4 counterexample: a speaker object whose image object carries a small
URL but lacks the main URL field u fails to deserialize, because u does
not have the serde default attribute; this contradicts the claim that all
four image URL variants are optional. -/
theorem C4_counterexample :
    speakersOfJson speakerNoMainUrl = none
    ∧ Image.fromJson (Json.obj [(cs "s", Json.str (cs "small.png"))]) = none :=
  ⟨rfl, rfl⟩

/-- C4 (amended): missing optional speaker fields receive their defaults —
missing booleans parse as false, missing lists as empty, the missing
defaulted string email as empty, a missing communication manager and a
missing image as none.  Inside an image object the small, thumbnail and
large variants are optional and default to empty, but the main URL u is
required: an image object without u fails to parse. -/
theorem C4_amended :
    (∀ fs i fn ln jt co,
      jLookup fs (cs "id") = some (Json.str i) →
      jLookup fs (cs "firstname") = some (Json.str fn) →
      jLookup fs (cs "lastname") = some (Json.str ln) →
      jLookup fs (cs "jobTitle") = some (Json.str jt) →
      jLookup fs (cs "company") = some (Json.str co) →
      jLookup fs (cs "email") = none →
      jLookup fs (cs "tags") = none →
      jLookup fs (cs "themes") = none →
      jLookup fs (cs "image") = none →
      jLookup fs (cs "hasBio") = none →
      jLookup fs (cs "hasSessions") = none →
      jLookup fs (cs "isOfficial") = none →
      jLookup fs (cs "isPartner") = none →
      jLookup fs (cs "top") = none →
      jLookup fs (cs "communication_manager") = none →
      Speaker.fromJson (Json.obj fs)
        = some ⟨i, fn, ln, [], jt, co, [], [], none,
            false, false, false, false, false, none⟩)
    ∧ (∀ fs u,
      jLookup fs (cs "s") = none → jLookup fs (cs "t") = none →
      jLookup fs (cs "l") = none → jLookup fs (cs "u") = some (Json.str u) →
      Image.fromJson (Json.obj fs) = some ⟨[], [], [], u⟩)
    ∧ (∀ fs, jLookup fs (cs "u") = none → Image.fromJson (Json.obj fs) = none) := by
  refine ⟨?_, ?_, ?_⟩
  · intro fs i fn ln jt co h1 h2 h3 h4 h5 h6 h7 h8 h9 h10 h11 h12 h13 h14 h15
    simp [Speaker.fromJson, reqStr, defStr, defBool, defStrList, optStr, optImage,
      h1, h2, h3, h4, h5, h6, h7, h8, h9, h10, h11, h12, h13, h14, h15]
  · intro fs u h1 h2 h3 h4
    simp [Image.fromJson, defStr, reqStr, h1, h2, h3, h4]
  · intro fs h
    simp [Image.fromJson, defStr, reqStr, h]

/-- C4 witness: a concrete speaker object carrying only the required
fields parses to the all-defaults record. -/
theorem C4_witness :
    Speaker.fromJson (Json.obj [(cs "id", Json.str (cs "1")),
      (cs "firstname", Json.str (cs "Jane")), (cs "lastname", Json.str (cs "Doe")),
      (cs "jobTitle", Json.str (cs "CEO")), (cs "company", Json.str (cs "Acme"))])
      = some ⟨cs "1", cs "Jane", cs "Doe", [], cs "CEO", cs "Acme", [], [], none,
          false, false, false, false, false, none⟩ :=
  C4_amended.1 _ (cs "1") (cs "Jane") (cs "Doe") (cs "CEO") (cs "Acme")
    rfl rfl rfl rfl rfl rfl rfl rfl rfl rfl rfl rfl rfl rfl rfl

/-- C6 counterexample: a kept partner object with the desc key present
but null and a string short_desc yields the empty description, not the
short_desc value, because the or-else in the source fires only when the
desc key is absent. -/
theorem C6_counterexample :
    descNullObj.getKey (cs "desc") = some Json.null
    ∧ descNullObj.getKey (cs "short_desc") = some (Json.str (cs "S"))
    ∧ (extract_partners_from_json_array [descNullObj]).map Partner.description = [[]]
    ∧ ([] : List Char) ≠ cs "S" :=
  ⟨rfl, rfl, rfl, by decide⟩

/-- C6 (amended): the derived description equals the desc value when that
key is present with a string value; when the desc key is present with a
non-string value (null included) the description is empty even if a
string short_desc is present; when the desc key is absent, the
description equals a string short_desc, and is empty when short_desc is
also absent or not a string. -/
theorem C6_amended :
    (∀ fs s, jLookup fs (cs "desc") = some (Json.str s) → descriptionOf fs = s)
    ∧ (∀ fs v, jLookup fs (cs "desc") = some v → v.asStr = none →
        descriptionOf fs = [])
    ∧ (∀ fs s, jLookup fs (cs "desc") = none →
        jLookup fs (cs "short_desc") = some (Json.str s) → descriptionOf fs = s)
    ∧ (∀ fs, jLookup fs (cs "desc") = none →
        jLookup fs (cs "short_desc") = none → descriptionOf fs = []) := by
  refine ⟨?_, ?_, ?_, ?_⟩
  · intro fs s h
    simp [descriptionOf, h, Option.orElse, Json.asStr]
  · intro fs v h hv
    simp [descriptionOf, h, Option.orElse, hv]
  · intro fs s h h2
    simp [descriptionOf, h, h2, Option.orElse, Json.asStr]
  · intro fs h h2
    simp [descriptionOf, h, h2, Option.orElse]

/-- C6 witness: the string-desc clause at a concrete object. -/
theorem C6_witness :
    descriptionOf [(cs "desc", Json.str (cs "D"))] = cs "D" :=
  C6_amended.1 [(cs "desc", Json.str (cs "D"))] (cs "D") rfl

/-- C3 counterexample: in the sequence backslash-u-plus-041, the four
captured characters are not four hexadecimal digits (the plus sign is not
a hex digit), so by the claim the sequence should be left unchanged; yet
the from_str_radix call accepts an optional leading plus sign and the
sequence decodes to the letter A. -/
theorem C3_counterexample :
    hexDigit? '+' = none
    ∧ unescape_unicode (cs "\\u+041") = cs "A"
    ∧ cs "A" ≠ cs "\\u+041" :=
  ⟨rfl, rfl, by decide⟩

/-- Helper: a character with a hex digit value is not the plus sign. -/
theorem hexDigit_ne_plus {a : Char} {da : Nat} (ha : hexDigit? a = some da) :
    a ≠ '+' := by
  intro h
  rw [h] at ha
  have : hexDigit? '+' = none := by decide
  rw [this] at ha
  exact Option.noConfusion ha

/-- Helper: stripSign keeps a list whose head is not the plus sign. -/
theorem stripSign_cons_ne (a : Char) (l : List Char) (h : a ≠ '+') :
    stripSign (a :: l) = a :: l := by
  rw [stripSign.eq_def]
  split
  · next heq => exact absurd (List.head_eq_of_cons_eq heq) h
  · rfl

/-- Helper: from_str_radix on four hexadecimal digits computes the base-16
value of the digits. -/
theorem fromStrRadix16_hex4 {a b c d : Char} {da db dc dd : Nat}
    (ha : hexDigit? a = some da) (hb : hexDigit? b = some db)
    (hc : hexDigit? c = some dc) (hd : hexDigit? d = some dd) :
    fromStrRadix16 [a, b, c, d] = some (((da * 16 + db) * 16 + dc) * 16 + dd) := by
  rw [fromStrRadix16, stripSign_cons_ne a [b, c, d] (hexDigit_ne_plus ha)]
  simp only [List.foldl, ha, hb, hc, hd]
  norm_num

/-- C3 (amended): unescape_unicode implements the step-5 reference up to
one deviation inherited from from_str_radix, which also accepts an
optional leading plus sign among the four captured characters (so
backslash-u-plus-041 decodes to A instead of being left unchanged).  Four
hex digits encoding a valid code point become that character; a sequence
whose four captured characters fail the from_str_radix parse, or encode
no valid code point, is left unchanged; fewer than four characters after
backslash-u are consumed and emitted unchanged; newline, carriage return,
tab, quote and backslash escapes are translated; any other character
after a backslash keeps the backslash; a lone trailing backslash is
emitted literally; and the concrete examples hold. -/
theorem C3_amended :
    (∀ a b c d rest ch, decodeHex4 a b c d = some ch →
      unescape_unicode ('\\' :: 'u' :: a :: b :: c :: d :: rest)
        = ch :: unescape_unicode rest)
    ∧ (∀ a b c d rest, decodeHex4 a b c d = none →
      unescape_unicode ('\\' :: 'u' :: a :: b :: c :: d :: rest)
        = '\\' :: 'u' :: a :: b :: c :: d :: unescape_unicode rest)
    ∧ (∀ a b c d (da db dc dd : Nat), hexDigit? a = some da → hexDigit? b = some db →
      hexDigit? c = some dc → hexDigit? d = some dd →
      fromStrRadix16 [a, b, c, d] = some (((da * 16 + db) * 16 + dc) * 16 + dd))
    ∧ (∀ r : List Char, r.length < 4 → unescape_unicode ('\\' :: 'u' :: r) = '\\' :: 'u' :: r)
    ∧ (∀ rest, unescape_unicode ('\\' :: 'n' :: rest) = '\n' :: unescape_unicode rest)
    ∧ (∀ rest, unescape_unicode ('\\' :: 'r' :: rest) = '\r' :: unescape_unicode rest)
    ∧ (∀ rest, unescape_unicode ('\\' :: 't' :: rest) = '\t' :: unescape_unicode rest)
    ∧ (∀ rest, unescape_unicode ('\\' :: '"' :: rest) = '"' :: unescape_unicode rest)
    ∧ (∀ rest, unescape_unicode ('\\' :: '\\' :: rest) = '\\' :: unescape_unicode rest)
    ∧ (∀ (c : Char) rest, c ∉ (['u', 'n', 'r', 't', '"', '\\'] : List Char) →
      unescape_unicode ('\\' :: c :: rest) = '\\' :: c :: unescape_unicode rest)
    ∧ unescape_unicode ['\\'] = ['\\']
    ∧ unescape_unicode (cs "\\u0026") = cs "&"
    ∧ unescape_unicode (cs "\\u00e9") = cs "é"
    ∧ unescape_unicode (cs "\\uZZZZ") = cs "\\uZZZZ" := by
  refine ⟨?_, ?_, ?_, ?_, ?_, ?_, ?_, ?_, ?_, ?_, rfl, rfl, rfl, rfl⟩
  · intro a b c d rest ch h
    simp [unescape_unicode, h]
  · intro a b c d rest h
    simp [unescape_unicode, h]
  · intro a b c d da db dc dd ha hb hc hd
    exact fromStrRadix16_hex4 ha hb hc hd
  · intro r hr
    rcases r with _ | ⟨x, _ | ⟨y, _ | ⟨z, _ | ⟨w, t⟩⟩⟩⟩
    · rfl
    · rfl
    · rfl
    · rfl
    · simp only [List.length_cons] at hr
      omega
  · intro rest; rfl
  · intro rest; rfl
  · intro rest; rfl
  · intro rest; rfl
  · intro rest; rfl
  · intro c rest hc
    simp only [List.mem_cons, List.not_mem_nil, or_false, not_or] at hc
    obtain ⟨h1, h2, h3, h4, h5, h6⟩ := hc
    simp [unescape_unicode, h1, h2, h3, h4, h5, h6]

/-- C3 witness: the hex clause applied at the concrete sequence 0026. -/
theorem C3_witness :
    unescape_unicode ('\\' :: 'u' :: '0' :: '0' :: '2' :: '6' :: []) = ['&'] :=
  C3_amended.1 '0' '0' '2' '6' [] '&' rfl

/-- Helper: depth positivity is preserved by the instrumented scan: with
depth at least one, no step sees a negative depth. -/
theorem scanNonneg_of_pos :
    ∀ (l : List Char) (depth : Int) (inStr esc : Bool), 1 ≤ depth →
      scanNonneg l depth inStr esc = true := by
  intro l
  induction l with
  | nil =>
    intro depth inStr esc h
    simp only [scanNonneg, decide_eq_true_eq]
    omega
  | cons c rest ih =>
    intro depth inStr esc h
    simp only [scanNonneg, Bool.and_eq_true, decide_eq_true_eq]
    refine ⟨by omega, ?_⟩
    split_ifs with h1 h2 h3 h4 h5 h6
    · exact ih depth inStr false h
    · exact ih depth inStr true h
    · exact ih depth (!inStr) esc h
    · exact ih (depth + 1) inStr esc (by omega)
    · simp only [Bool.and_eq_true, decide_eq_true_eq]
      exact ⟨by omega, by simp [h6]⟩
    · simp only [Bool.and_eq_true, decide_eq_true_eq]
      exact ⟨by omega, ih (depth - 1) inStr esc (by omega)⟩
    · exact ih depth inStr esc h

/-- Helper: with the marker at the front, the first eleven scan steps
leave the scan at depth one outside a string, so the instrumented scan
accepts. -/
theorem scanNonneg_marker (rest : List Char) :
    scanNonneg (marker ++ rest) 0 false false = true := by
  have h : scanNonneg (marker ++ rest) 0 false false
      = scanNonneg rest 1 false false := rfl
  rw [h]
  exact scanNonneg_of_pos rest 1 false false (by omega)

/-- Helper: a successful find leaves the pattern as a prefix of the tail
at the found index. -/
theorem findSub_isPrefix (pat : List Char) :
    ∀ (l : List Char) (s : Nat), findSub pat l = some s →
      pat.isPrefixOf (l.drop s) = true := by
  intro l
  induction l with
  | nil =>
    intro s h
    by_cases hp : pat.isPrefixOf ([] : List Char) = true
    · simp only [findSub, hp, if_true, Option.some.injEq] at h
      subst h
      simpa using hp
    · simp only [findSub, hp, if_false] at h
      simp at hp
      simp [hp] at h
  | cons c rest ih =>
    intro s h
    by_cases hp : pat.isPrefixOf (c :: rest) = true
    · simp only [findSub, hp, if_true, Option.some.injEq] at h
      subst h
      simpa using hp
    · simp [findSub, hp] at h
      obtain ⟨a, ha, rfl⟩ := h
      simpa using ih a ha

/-- Helper: a true isPrefixOf yields the append decomposition. -/
theorem isPrefixOf_exists (p : List Char) :
    ∀ l, p.isPrefixOf l = true → ∃ t, l = p ++ t := by
  induction p with
  | nil =>
    intro l _
    exact ⟨l, rfl⟩
  | cons a p ih =>
    intro l h
    cases l with
    | nil => simp [List.isPrefixOf] at h
    | cons b l2 =>
      simp only [List.isPrefixOf, Bool.and_eq_true, beq_iff_eq] at h
      obtain ⟨rfl, h2⟩ := h
      obtain ⟨t, rfl⟩ := ih l2 h2
      exact ⟨t, rfl⟩

/-- C2: extract_json_from_html is total by construction over all inputs
(modelled as a function, it cannot panic); it returns an error exactly
when the marker is absent, or when the scan exhausts the input without
the depth counter returning to zero; and since the scan starts on the
marker opening bracket, the signed depth counter stays nonnegative at
every step of the scan, so the unguarded decrement cannot underflow. -/
theorem C2_total_error_nonneg (html : List Char) :
    ((∃ e, extract_json_from_html html = .error e) ↔
      findSub marker html = none ∨
        ∃ s, findSub marker html = some s ∧
          scanLoop (html.drop s) 0 0 false false = none)
    ∧ (∀ s, findSub marker html = some s →
        scanNonneg (html.drop s) 0 false false = true) := by
  constructor
  · cases hf : findSub marker html with
    | none => simp [extract_json_from_html, hf]
    | some s =>
      cases hs : scanLoop (html.drop s) 0 0 false false with
      | none => simp [extract_json_from_html, hf, hs]
      | some i => simp [extract_json_from_html, hf, hs]
  · intro s hs
    obtain ⟨t, ht⟩ :=
      isPrefixOf_exists marker (html.drop s) (findSub_isPrefix marker html s hs)
    rw [ht]
    exact scanNonneg_marker t

/-- C2 witness: at a concrete input carrying the marker at index two, the
scan depth stays nonnegative throughout. -/
theorem C2_witness :
    scanNonneg ((cs "ab[\x7b\\\"id\\\":\\\"x\\\"\x7d]").drop 2) 0 false false = true :=
  (C2_total_error_nonneg (cs "ab[\x7b\\\"id\\\":\\\"x\\\"\x7d]")).2 2 rfl

/-- C8 (amended): when the extractor successfully returns delimited,
unescaped text and the JSON parse of that text rejects it, the speakers
pipeline reports the Parser-level failure; the partners pipeline however
fuses extraction and parsing, and the same situation there falls through
to the extraction-level not-found error. -/
theorem C8_amended :
    (∀ html out t, extract_json_from_html html = .ok t →
      Json.parse? t = none →
      (run_scraper html out).1 = .error .parseErr)
    ∧ (∀ html s i, findSub marker html = some s →
      pScanLoop (html.drop s) 0 0 false false = some i →
      Json.parse? (unescape_unicode (replaceEscQuote ((html.drop s).take (i + 1)))) = none →
      extract_partners_from_html html = .error .notFound) := by
  constructor
  · intro html out t ht hp
    simp [run_scraper, ht, parse_speakers_from_json, hp]
  · intro html s i hf hs hp
    simp [extract_partners_from_html, hf, hs, hp]

/-- C8 counterexample: on parseRejectHtml the partners scan delimits
successfully (the closing bracket is found at index twelve) and the
recovered text fails to parse as JSON, yet the partners pipeline reports
the not-found error; the speakers pipeline on the same input reports the
parse error. -/
theorem C8_counterexample :
    pScanLoop parseRejectHtml 0 0 false false = some 12
    ∧ Json.parse? (unescape_unicode (replaceEscQuote (parseRejectHtml.take 13))) = none
    ∧ extract_partners_from_html parseRejectHtml = .error .notFound
    ∧ run_scraper parseRejectHtml (cs "out.csv") = (.error .parseErr, []) :=
  ⟨rfl, rfl, rfl, rfl⟩

/-- C8 witness: the partners clause of the amended theorem applied at the
concrete input. -/
theorem C8_witness :
    extract_partners_from_html parseRejectHtml = .error .notFound :=
  C8_amended.2 parseRejectHtml 0 12 rfl rfl rfl

/-- Helper: the Boolean any-name test of the accumulation loop holds
exactly when the name occurs among the accumulated names. -/
theorem any_name_iff (acc : List Partner) (nm : List Char) :
    acc.any (fun q => q.name == nm) = true ↔ nm ∈ acc.map Partner.name := by
  simp only [List.any_eq_true, List.mem_map, beq_iff_eq]

/-- Helper: the Boolean contains test holds exactly at membership. -/
theorem contains_iff_mem (l : List (List Char)) (x : List Char) :
    l.contains x = true ↔ x ∈ l := by
  induction l with
  | nil => simp [List.contains]
  | cons a as ih =>
    simp only [List.contains_cons, Bool.or_eq_true, beq_iff_eq, List.mem_cons, ih]

/-- Helper: keepFirstBy only inspects membership in the seen list. -/
theorem keepFirstBy_congr :
    ∀ (l : List Partner) (s1 s2 : List (List Char)),
      (∀ x, x ∈ s1 ↔ x ∈ s2) → keepFirstBy s1 l = keepFirstBy s2 l := by
  intro l
  induction l with
  | nil => intro s1 s2 _; rfl
  | cons p rest ih =>
    intro s1 s2 h
    by_cases hc : p.name ∈ s2
    · have h1 : s1.contains p.name = true := (contains_iff_mem _ _).2 ((h _).2 hc)
      have h2 : s2.contains p.name = true := (contains_iff_mem _ _).2 hc
      simp only [keepFirstBy, h1, h2, if_true]
      exact ih s1 s2 h
    · have h1 : ¬(s1.contains p.name = true) :=
        fun hh => hc ((h _).1 ((contains_iff_mem _ _).1 hh))
      have h2 : ¬(s2.contains p.name = true) :=
        fun hh => hc ((contains_iff_mem _ _).1 hh)
      simp only [keepFirstBy, if_neg h1, if_neg h2]
      refine congrArg (p :: ·) (ih _ _ fun x => ?_)
      simp only [List.mem_cons]
      exact or_congr Iff.rfl (h x)

/-- Helper: the accumulation loop equals the accumulated output followed
by the specification-side first-wins deduplication of the remaining
derived records. -/
theorem epLoop_keepFirst :
    ∀ (l : List Json) (acc : List Partner),
      epLoop l acc = acc ++ keepFirstBy (acc.map Partner.name) (l.filterMap partnerOf) := by
  intro l
  induction l with
  | nil =>
    intro acc
    simp [epLoop, keepFirstBy]
  | cons item rest ih =>
    intro acc
    cases hp : partnerOf item with
    | none =>
      simp only [epLoop, hp, List.filterMap_cons]
      exact ih acc
    | some p =>
      simp only [epLoop, hp, List.filterMap_cons]
      by_cases hmem : p.name ∈ acc.map Partner.name
      · have ha : acc.any (fun q => q.name == p.name) = true := (any_name_iff _ _).2 hmem
        have hc : (acc.map Partner.name).contains p.name = true :=
          (contains_iff_mem _ _).2 hmem
        simp only [ha, if_true, keepFirstBy, hc]
        exact ih acc
      · have ha : ¬(acc.any (fun q => q.name == p.name) = true) :=
          fun hh => hmem ((any_name_iff _ _).1 hh)
        have hc : ¬((acc.map Partner.name).contains p.name = true) :=
          fun hh => hmem ((contains_iff_mem _ _).1 hh)
        simp only [if_neg ha, keepFirstBy, if_neg hc]
        rw [ih (acc ++ [p]), List.append_assoc]
        refine congrArg (acc ++ ·) ?_
        simp only [List.map_append, List.map_cons, List.map_nil, List.singleton_append]
        refine congrArg (p :: ·) (keepFirstBy_congr _ _ _ fun x => ?_)
        simp only [List.mem_append, List.mem_cons, List.mem_singleton, List.not_mem_nil,
          or_false]
        exact or_comm

/-- Helper: the deduplicated output has pairwise distinct names, all of
them outside the seen list. -/
theorem keepFirstBy_nodup :
    ∀ (l : List Partner) (seen : List (List Char)),
      ((keepFirstBy seen l).map Partner.name).Nodup
      ∧ ∀ x ∈ (keepFirstBy seen l).map Partner.name, ¬ x ∈ seen := by
  intro l
  induction l with
  | nil =>
    intro seen
    simp [keepFirstBy]
  | cons p rest ih =>
    intro seen
    by_cases hc : p.name ∈ seen
    · have h1 : seen.contains p.name = true := (contains_iff_mem _ _).2 hc
      simp only [keepFirstBy, h1, if_true]
      exact ih seen
    · have h1 : ¬(seen.contains p.name = true) :=
        fun hh => hc ((contains_iff_mem _ _).1 hh)
      simp only [keepFirstBy, if_neg h1]
      obtain ⟨hnd, hfresh⟩ := ih (p.name :: seen)
      constructor
      · simp only [List.map_cons, List.nodup_cons]
        exact ⟨fun hmem => hfresh _ hmem (List.mem_cons_self _ _), hnd⟩
      · intro x hx
        simp only [List.map_cons, List.mem_cons] at hx
        rcases hx with rfl | hx
        · exact hc
        · exact fun hxs => hfresh x hx (List.mem_cons_of_mem _ hxs)

/-- Helper: as_str succeeds exactly on string values. -/
theorem asStr_eq_some (v : Json) (s : List Char) :
    v.asStr = some s ↔ v = Json.str s := by
  cases v <;> simp [Json.asStr]

/-- C5: extract_partners_from_json_array equals the specification-side
pipeline, the first-wins deduplication by name of the derived records of
the kept objects in encounter order; no two returned records share a
name; an object is kept exactly when it is a JSON object with string name
and type fields whose type contains partner or equals startup (and
non-objects are never kept); and the three category examples evaluate as
claimed: sponsor excluded, gold partner and startup included. -/
theorem C5_filter_dedup (array : List Json) :
    extract_partners_from_json_array array
        = keepFirstBy [] (array.filterMap partnerOf)
    ∧ ((extract_partners_from_json_array array).map Partner.name).Nodup
    ∧ (∀ fs, (partnerOf (Json.obj fs)).isSome = true ↔
        ∃ nm tp, jLookup fs (cs "name") = some (Json.str nm)
          ∧ jLookup fs (cs "type") = some (Json.str tp)
          ∧ (containsSub tp (cs "partner") || tp == cs "startup") = true)
    ∧ (∀ item : Json, (∀ fs, item ≠ Json.obj fs) → partnerOf item = none)
    ∧ (containsSub (cs "sponsor") (cs "partner") || cs "sponsor" == cs "startup") = false
    ∧ (containsSub (cs "gold partner") (cs "partner")
        || cs "gold partner" == cs "startup") = true
    ∧ (containsSub (cs "startup") (cs "partner") || cs "startup" == cs "startup") = true := by
  have h1 : extract_partners_from_json_array array
      = keepFirstBy [] (array.filterMap partnerOf) := by
    have h := epLoop_keepFirst array []
    simpa [extract_partners_from_json_array] using h
  refine ⟨h1, ?_, ?_, ?_, by rfl, by rfl, by rfl⟩
  · rw [h1]
    exact (keepFirstBy_nodup _ _).1
  · intro fs
    constructor
    · intro h
      simp only [partnerOf] at h
      cases hn : jLookup fs (cs "name") with
      | none => rw [hn] at h; simp at h
      | some nv =>
        cases ht : jLookup fs (cs "type") with
        | none => rw [hn, ht] at h; simp at h
        | some tv =>
          rw [hn, ht] at h
          rcases nv with _ | b | r | nm | a | o <;> try (simp [Json.asStr] at h)
          rcases tv with _ | b2 | r2 | tp | a2 | o2 <;> try (simp [Json.asStr] at h)
          refine ⟨nm, tp, rfl, rfl, ?_⟩
          simp only [Bool.or_eq_true, decide_eq_true_eq, beq_iff_eq]
          exact h
    · rintro ⟨nm, tp, hn, ht, hcond⟩
      simp [partnerOf, hn, ht, Json.asStr, hcond]
  · intro item h
    cases item with
    | obj fs => exact absurd rfl (h fs)
    | null => rfl
    | bool b => rfl
    | num r => rfl
    | str s => rfl
    | arr a => rfl

/-- C5 witness: the pipeline equality applied at a concrete two-object
array with a duplicated name, keeping only the first record. -/
theorem C5_witness :
    extract_partners_from_json_array
        [Json.obj [(cs "name", Json.str (cs "A")), (cs "type", Json.str (cs "startup"))],
         Json.obj [(cs "name", Json.str (cs "A")), (cs "type", Json.str (cs "gold partner"))]]
      = keepFirstBy []
          (List.filterMap partnerOf
            [Json.obj [(cs "name", Json.str (cs "A")), (cs "type", Json.str (cs "startup"))],
             Json.obj [(cs "name", Json.str (cs "A")),
               (cs "type", Json.str (cs "gold partner"))]]) :=
  (C5_filter_dedup
    [Json.obj [(cs "name", Json.str (cs "A")), (cs "type", Json.str (cs "startup"))],
     Json.obj [(cs "name", Json.str (cs "A")),
       (cs "type", Json.str (cs "gold partner"))]]).1

/-- Helper: a list is a prefix of itself followed by anything. -/
theorem isPrefixOf_append_self : ∀ (l r : List Char), l.isPrefixOf (l ++ r) = true := by
  intro l
  induction l with
  | nil =>
    intro r
    rw [List.nil_append]
    cases r <;> rfl
  | cons a as ih =>
    intro r
    simp [List.cons_append, List.isPrefixOf, ih]

/-- Helper: find returns index zero when the pattern is already in
front. -/
theorem findSub_of_prefix (pat l : List Char) (h : pat.isPrefixOf l = true) :
    findSub pat l = some 0 := by
  cases l with
  | nil => simp [findSub, h]
  | cons c rest => simp [findSub, h]

/-- Helper: the speaker scan walks the eleven marker characters into
depth one. -/
theorem scanLoop_marker (rest : List Char) :
    scanLoop (marker ++ rest) 0 0 false false = scanLoop rest 11 1 false false := rfl

/-- Helper: the speaker scan crosses a run of filler characters without
changing its state, only advancing the index. -/
theorem scanLoop_replicate (n : Nat) (z : List Char) :
    ∀ (i : Nat) (d : Int) (b : Bool),
      scanLoop (List.replicate n 'a' ++ z) i d b false = scanLoop z (i + n) d b false := by
  induction n with
  | zero => intro i d b; rfl
  | succ m ih =>
    intro i d b
    have h : scanLoop (List.replicate (m + 1) 'a' ++ z) i d b false
        = scanLoop (List.replicate m 'a' ++ z) (i + 1) d b false := rfl
    rw [h, ih]
    congr 1
    omega

/-- Helper: at depth one, the speaker scan crosses the escaped quote and
closing brace of the tail and reports the closing bracket three steps
in. -/
theorem scanLoop_tail (i : Nat) :
    scanLoop (cs "\\\"\x7d]") i 1 false false = some (i + 3) := rfl

/-- Helper: the partner scan walks the eleven marker characters into
depth one (all their indices are far below the limit). -/
theorem pScanLoop_marker (rest : List Char) :
    pScanLoop (marker ++ rest) 0 0 false false = pScanLoop rest 11 1 false false := rfl

/-- Helper: the partner scan crosses a run of filler characters while the
limit check keeps passing. -/
theorem pScanLoop_replicate (n : Nat) (z : List Char) :
    ∀ (i : Nat) (d : Int) (b : Bool), i + n ≤ 50000001 →
      pScanLoop (List.replicate n 'a' ++ z) i d b false = pScanLoop z (i + n) d b false := by
  induction n with
  | zero => intro i d b _; rfl
  | succ m ih =>
    intro i d b h
    have h1 : pScanLoop (List.replicate (m + 1) 'a' ++ z) i d b false
        = if i > 50000000 then none
          else pScanLoop (List.replicate m 'a' ++ z) (i + 1) d b false := rfl
    rw [h1, if_neg (by omega), ih (i + 1) d b (by omega)]
    congr 1
    omega

/-- Helper: replacing escaped quotes turns the marker into the plain JSON
array head. -/
theorem replaceEscQuote_marker (y : List Char) :
    replaceEscQuote (marker ++ y) = jsonHead ++ replaceEscQuote y := rfl

/-- Helper: replacing escaped quotes crosses filler characters
unchanged. -/
theorem replaceEscQuote_replicate (n : Nat) (z : List Char) :
    replaceEscQuote (List.replicate n 'a' ++ z)
      = List.replicate n 'a' ++ replaceEscQuote z := by
  induction n with
  | zero => rfl
  | succ m ih =>
    have h : replaceEscQuote (List.replicate (m + 1) 'a' ++ z)
        = 'a' :: replaceEscQuote (List.replicate m 'a' ++ z) := rfl
    rw [h, ih]
    rfl

/-- Helper: unicode unescaping leaves the plain JSON array head
unchanged. -/
theorem unescape_jsonHead (y : List Char) :
    unescape_unicode (jsonHead ++ y) = jsonHead ++ unescape_unicode y := rfl

/-- Helper: unicode unescaping crosses filler characters unchanged. -/
theorem unescape_replicate (n : Nat) (z : List Char) :
    unescape_unicode (List.replicate n 'a' ++ z)
      = List.replicate n 'a' ++ unescape_unicode z := by
  induction n with
  | zero => rfl
  | succ m ih =>
    have h : unescape_unicode (List.replicate (m + 1) 'a' ++ z)
        = 'a' :: unescape_unicode (List.replicate m 'a' ++ z) := rfl
    rw [h, ih]
    rfl

/-- Helper: the JSON string scanner consumes a filler run up to the
closing quote. -/
theorem pStrBody_replicate (n : Nat) (z : List Char) :
    ∀ acc, pStrBody (List.replicate n 'a' ++ '"' :: z) acc
      = some (acc ++ List.replicate n 'a', z) := by
  induction n with
  | zero =>
    intro acc
    have h : pStrBody (List.replicate 0 'a' ++ '"' :: z) acc = some (acc, z) := rfl
    rw [h, List.replicate_zero, List.append_nil]
  | succ m ih =>
    intro acc
    have h : pStrBody (List.replicate (m + 1) 'a' ++ '"' :: z) acc
        = pStrBody (List.replicate m 'a' ++ '"' :: z) (acc ++ ['a']) := rfl
    rw [h, ih, List.replicate_succ, List.append_assoc]
    rfl

/-- Helper: parsing the single id member with a filler string value. -/
theorem pMembers_id (f n : Nat) :
    pMembers (f + 1 + 1)
        ('"' :: 'i' :: 'd' :: '"' :: ':' :: '"' ::
          (List.replicate n 'a' ++ '"' :: '\x7d' :: ']' :: []))
        []
      = some (Json.obj [(cs "id", Json.str (List.replicate n 'a'))], [']']) := by
  have hval : pValue (f + 1) ('"' :: (List.replicate n 'a' ++ '"' :: '\x7d' :: ']' :: []))
      = some (Json.str (List.replicate n 'a'), '\x7d' :: ']' :: []) := by
    have h0 : pValue (f + 1) ('"' :: (List.replicate n 'a' ++ '"' :: '\x7d' :: ']' :: []))
        = (pStrBody (List.replicate n 'a' ++ '"' :: '\x7d' :: ']' :: []) []).map
            (fun p => (Json.str p.1, p.2)) := rfl
    rw [h0, pStrBody_replicate]
    rfl
  have h1 : pMembers (f + 1 + 1)
        ('"' :: 'i' :: 'd' :: '"' :: ':' :: '"' ::
          (List.replicate n 'a' ++ '"' :: '\x7d' :: ']' :: [])) []
      = (match pValue (f + 1)
            ('"' :: (List.replicate n 'a' ++ '"' :: '\x7d' :: ']' :: [])) with
        | some (v, r3) =>
          match r3.dropWhile isJsonWs with
          | ',' :: r4 =>
            pMembers (f + 1) r4 (([] : List (List Char × Json)) ++ [(['i', 'd'], v)])
          | '\x7d' :: r4 =>
            some (Json.obj (([] : List (List Char × Json)) ++ [(['i', 'd'], v)]), r4)
          | _ => none
        | none => none) := rfl
  rw [h1, hval]
  rfl

/-- Helper: parsing the whole recovered filler array with enough fuel. -/
theorem pValue_longId (f n : Nat) :
    pValue (f + 5) (jsonHead ++ (List.replicate n 'a' ++ cs "\"\x7d]"))
      = some (Json.arr [Json.obj [(cs "id", Json.str (List.replicate n 'a'))]], []) := by
  have h0 : pValue (f + 5) (jsonHead ++ (List.replicate n 'a' ++ cs "\"\x7d]"))
      = (match pMembers (f + 1 + 1)
            ('"' :: 'i' :: 'd' :: '"' :: ':' :: '"' ::
              (List.replicate n 'a' ++ '"' :: '\x7d' :: ']' :: [])) [] with
        | some (v, r) =>
          match r.dropWhile isJsonWs with
          | ',' :: r2 => pElems (f + 3) r2 (([] : List Json) ++ [v])
          | ']' :: r2 => some (Json.arr (([] : List Json) ++ [v]), r2)
          | _ => none
        | none => none) := rfl
  rw [h0, pMembers_id f n]
  rfl

/-- Helper: the full JSON parse of the recovered filler array text. -/
theorem parse_longId (n : Nat) :
    Json.parse? (jsonHead ++ (List.replicate n 'a' ++ cs "\"\x7d]"))
      = some (Json.arr [Json.obj [(cs "id", Json.str (List.replicate n 'a'))]]) := by
  have hL : (jsonHead ++ (List.replicate n 'a' ++ cs "\"\x7d]")).length = n + 11 := by
    rw [List.length_append, List.length_append, List.length_replicate,
      show jsonHead.length = 8 from rfl, show (cs "\"\x7d]").length = 3 from rfl]
    omega
  have h0 : Json.parse? (jsonHead ++ (List.replicate n 'a' ++ cs "\"\x7d]"))
      = (match pValue (2 * (jsonHead ++ (List.replicate n 'a' ++ cs "\"\x7d]")).length + 2)
            (jsonHead ++ (List.replicate n 'a' ++ cs "\"\x7d]")) with
        | some (v, rest) =>
          if (rest.dropWhile isJsonWs).isEmpty then some v else none
        | none => none) := rfl
  have hfuel : 2 * (jsonHead ++ (List.replicate n 'a' ++ cs "\"\x7d]")).length + 2
      = (2 * n + 19) + 5 := by
    rw [hL]
    omega
  rw [h0, hfuel, pValue_longId (2 * n + 19) n]
  rfl

/-- Helper: a successful limited scan never reports an index beyond
50000002.  The limit check runs after each processed character except an
escaped one, whose consumption skips the check; but the escape flag is
only set by a backslash that itself passed the check at the previous
index, so the escape-consuming step runs at an index of at most 50000001
and hands the scan an index of at most 50000002, where any
non-terminating character fails the check. -/
theorem pScanLoop_le :
    ∀ (l : List Char) (i : Nat) (d : Int) (b e : Bool) (j : Nat),
      i ≤ 50000002 → (e = true → i ≤ 50000001) →
      pScanLoop l i d b e = some j → j ≤ 50000002 := by
  intro l
  induction l with
  | nil =>
    intro i d b e j _ _ h
    simp [pScanLoop] at h
  | cons c rest ih =>
    intro i d b e j hi hesc h
    simp only [pScanLoop] at h
    split_ifs at h
    all_goals try (injection h with hj)
    all_goals try omega
    all_goals first
      | exact ih _ _ _ _ _ (by have hx := hesc (by assumption); omega) (by simp) h
      | exact ih _ _ _ _ _ (by omega) (fun _ => by omega) h

/-- Helper: speakers-side extraction succeeds on the filler family at
every length, returning the unescaped array. -/
theorem extract_idFiller (n : Nat) :
    extract_json_from_html (idFiller n)
      = .ok (jsonHead ++ (List.replicate n 'a' ++ cs "\"\x7d]")) := by
  have hfind : findSub marker (idFiller n) = some 0 :=
    findSub_of_prefix _ _ (isPrefixOf_append_self marker _)
  have hscan : scanLoop ((idFiller n).drop 0) 0 0 false false = some (11 + n + 3) := by
    rw [List.drop_zero]
    show scanLoop (marker ++ (List.replicate n 'a' ++ cs "\\\"\x7d]")) 0 0 false false = _
    rw [scanLoop_marker, scanLoop_replicate, scanLoop_tail]
  have htake : ((idFiller n).drop 0).take (11 + n + 3 + 1) = idFiller n := by
    rw [List.drop_zero]
    have hlen : (idFiller n).length = 11 + n + 3 + 1 := by
      rw [show idFiller n = marker ++ (List.replicate n 'a' ++ cs "\\\"\x7d]") from rfl,
        List.length_append, List.length_append, List.length_replicate,
        show marker.length = 11 from rfl, show (cs "\\\"\x7d]").length = 4 from rfl]
      omega
    rw [← hlen, List.take_length]
  have hrep : replaceEscQuote (idFiller n)
      = jsonHead ++ (List.replicate n 'a' ++ cs "\"\x7d]") := by
    show replaceEscQuote (marker ++ (List.replicate n 'a' ++ cs "\\\"\x7d]")) = _
    rw [replaceEscQuote_marker, replaceEscQuote_replicate]
    rfl
  have hune : unescape_unicode (jsonHead ++ (List.replicate n 'a' ++ cs "\"\x7d]"))
      = jsonHead ++ (List.replicate n 'a' ++ cs "\"\x7d]") := by
    rw [unescape_jsonHead, unescape_replicate]
    rfl
  simp only [extract_json_from_html, hfind, hscan, htake, hrep, hune]

/-- C10 (amended): the partners scan checks its safety limit at the end
of each loop iteration, but the escape-consuming iteration ends in a
continue that skips the check, so a successful partner scan stops at an
index of at most 50000002 — a payload whose closing bracket lies at
index 50000003 or later is abandoned with the not-found error — and that
bound is attained: on escFiller the backslash at index 50000000 passes
the check, the escaped quote at index 50000001 is consumed without one,
and the closer is found at index 50000002 (a closer at index 50000001 is
likewise found, see the counterexample); meanwhile the speakers-side
extract_json_from_html has no such limit: it succeeds on the filler
family at every length. -/
theorem C10_amended :
    (∀ (l : List Char) (j : Nat),
      pScanLoop l 0 0 false false = some j → j ≤ 50000002)
    ∧ pScanLoop escFiller 0 0 false false = some 50000002
    ∧ (∀ n, extract_json_from_html (idFiller n)
        = .ok (jsonHead ++ (List.replicate n 'a' ++ cs "\"\x7d]"))) := by
  refine ⟨fun l j h =>
      pScanLoop_le l 0 0 false false j (by omega) (by simp) h, ?_, extract_idFiller⟩
  show pScanLoop (marker ++ (List.replicate 49999989 'a' ++ cs "\\\"]")) 0 0 false false
      = some 50000002
  rw [pScanLoop_marker, pScanLoop_replicate 49999989 _ 11 1 false (by omega),
    show (11 + 49999989 : Nat) = 50000000 from by norm_num]
  rfl

/-- C10 witness: the bound applied to a concrete two-character scan. -/
theorem C10_witness : (1 : Nat) ≤ 50000002 :=
  C10_amended.1 ['[', ']'] 1 rfl

/-- Helper: the success path of the partners extractor, stated over an
abstract input so that every scrutinee stays symbolic: when the marker is
found, the limited scan reports a closing index, and the recovered text
parses to a JSON array, the call returns the extracted partner list. -/
theorem extract_partners_eq_ok (html : List Char) (s i : Nat) (a : List Json)
    (hf : findSub marker html = some s)
    (hs : pScanLoop (html.drop s) 0 0 false false = some i)
    (hp : Json.parse? (unescape_unicode (replaceEscQuote ((html.drop s).take (i + 1))))
        = some (Json.arr a)) :
    extract_partners_from_html html = .ok (extract_partners_from_json_array a) := by
  simp [extract_partners_from_html, hf, hs, hp]

/-- C10 counterexample: with the closing bracket of the well-formed
payload at scan index 50000001 — beyond character index 50000000 — the
partners extractor does not return the not-found error: the scan still
finds the closer, the recovered text parses, and the call succeeds with
the empty partner list. -/
theorem C10_counterexample :
    pScanLoop (idFiller c10Len) 0 0 false false = some 50000001
    ∧ 50000000 < 50000001
    ∧ extract_partners_from_html (idFiller c10Len) = .ok [] := by
  have hidx : 11 + c10Len = 49999998 := by norm_num [c10Len]
  have hscan : pScanLoop (idFiller c10Len) 0 0 false false = some 50000001 := by
    show pScanLoop (marker ++ (List.replicate c10Len 'a' ++ cs "\\\"\x7d]")) 0 0 false false
        = some 50000001
    rw [pScanLoop_marker, pScanLoop_replicate c10Len _ 11 1 false (by omega), hidx]
    rfl
  refine ⟨hscan, by omega, ?_⟩
  have hfind : findSub marker (idFiller c10Len) = some 0 :=
    findSub_of_prefix _ _ (isPrefixOf_append_self marker _)
  have hscan0 : pScanLoop ((idFiller c10Len).drop 0) 0 0 false false = some 50000001 := by
    rw [List.drop_zero]
    exact hscan
  have htake : ((idFiller c10Len).drop 0).take (50000001 + 1) = idFiller c10Len := by
    rw [List.drop_zero]
    have hlen : (idFiller c10Len).length = 50000001 + 1 := by
      rw [show idFiller c10Len
            = marker ++ (List.replicate c10Len 'a' ++ cs "\\\"\x7d]") from rfl,
        List.length_append, List.length_append, List.length_replicate,
        show marker.length = 11 from rfl, show (cs "\\\"\x7d]").length = 4 from rfl]
      norm_num [c10Len]
    rw [← hlen, List.take_length]
  have hrep : replaceEscQuote (idFiller c10Len)
      = jsonHead ++ (List.replicate c10Len 'a' ++ cs "\"\x7d]") := by
    show replaceEscQuote (marker ++ (List.replicate c10Len 'a' ++ cs "\\\"\x7d]")) = _
    rw [replaceEscQuote_marker, replaceEscQuote_replicate]
    rfl
  have hune : unescape_unicode (jsonHead ++ (List.replicate c10Len 'a' ++ cs "\"\x7d]"))
      = jsonHead ++ (List.replicate c10Len 'a' ++ cs "\"\x7d]") := by
    rw [unescape_jsonHead, unescape_replicate]
    rfl
  have hempty : extract_partners_from_json_array
      [Json.obj [(cs "id", Json.str (List.replicate c10Len 'a'))]] = [] := by
    have hnone : partnerOf (Json.obj [(cs "id", Json.str (List.replicate c10Len 'a'))])
        = none := by
      have hlu : jLookup [(cs "id", Json.str (List.replicate c10Len 'a'))] (cs "name")
          = none := by
        simp [jLookup, cs]
      simp [partnerOf, hlu]
    simp [extract_partners_from_json_array, epLoop, hnone]
  have hp : Json.parse? (unescape_unicode (replaceEscQuote
      (((idFiller c10Len).drop 0).take (50000001 + 1))))
      = some (Json.arr [Json.obj [(cs "id", Json.str (List.replicate c10Len 'a'))]]) := by
    rw [htake, hrep, hune, parse_longId]
  calc extract_partners_from_html (idFiller c10Len)
      = .ok (extract_partners_from_json_array
          [Json.obj [(cs "id", Json.str (List.replicate c10Len 'a'))]]) :=
        extract_partners_eq_ok _ 0 50000001 _ hfind hscan0 hp
    _ = .ok [] := by rw [hempty]

